import Mathlib

/-!
# AliceVision: two-view sample (`main_robustEssential.cpp`), `Image.hpp`, Equidistant test

A shallow embedding of

* the triangulation loop and the control flow of `main` in
  `src/samples/robustEssential/main_robustEssential.cpp`;
* the `Image<T>` container of `src/aliceVision/image/Image.hpp`;
* the generation of the random image point in `src/aliceVision/camera/equidistant_test.cpp`.

Conventions.

* `double` and `float` values that the program only stores and passes on (pixel coordinates,
  points, matrices) are embedded as rationals (`ℚ`). The values it compares or transforms, the
  depths and the residuals returned by the geometry routines, are embedded as `Double`: a rational
  or NaN, with the comparisons and `fabs` of IEEE 754 on NaN. Rounding and infinities are not
  modelled.
* `int` is embedded as `Int` restricted to the 32-bit range (`IsInt`), `Eigen::Index` as a natural
  number; a narrowing `static_cast<int>` is the explicit wrap `toInt32`, and arithmetic in
  `unsigned long long int` is reduced modulo `2^64` (`toULL`, `mulULL`).
* `std::vector` is a `List`; `operator[]` is `List.getD` (an out-of-range index is undefined
  behaviour in the source and yields a default element here).
* Library code that the sample calls but whose body is not part of the sources at hand
  (`multiview::TriangulateDLT`, `Pose3::depth`, `Pinhole::residual`, ...) is a parameter, collected in
  the structure `Geometry`.
-/

namespace AliceVision

/-! ## Numeric types -/

/-- The Eigen type `Vec2` (two doubles). -/
abbrev Vec2 := ℚ × ℚ

/-- The Eigen type `Vec3` (three doubles). -/
abbrev Vec3 := ℚ × ℚ × ℚ

/-- The Eigen type `Vec4` (four doubles). -/
abbrev Vec4 := ℚ × ℚ × ℚ × ℚ

/-- The Eigen type `Mat3`, addressed as `K(row, col)`. -/
abbrev Mat3 := Fin 3 → Fin 3 → ℚ

/-- The Eigen type `Mat34`. -/
abbrev Mat34 := Fin 3 → Fin 4 → ℚ

/-- Eigen `X.homogeneous()`: append a unit coordinate. -/
def homogeneous (X : Vec3) : Vec4 := (X.1, X.2.1, X.2.2, 1)

/-- Eigen `Mat3::Identity()`. -/
def Mat3.Identity : Mat3 := fun i j => if i = j then 1 else 0

/-- Eigen `Vec3::Zero()`. -/
def Vec3.Zero : Vec3 := (0, 0, 0)

/-- A `double` computed by the geometry routines: not a number (NaN), or a number. -/
inductive Double where
  | NaN
  | num (q : ℚ)
  deriving DecidableEq

namespace Double

/-- The literal `0` as a `double`. -/
instance : Zero Double := ⟨num 0⟩

/-- The comparison `a < b` of two `double`s: false as soon as one of them is NaN. -/
def lt (a b : Double) : Prop :=
  match a with
  | NaN => False
  | num x =>
    match b with
    | NaN => False
    | num y => x < y

/-- The comparison `a <= b` of two `double`s: false as soon as one of them is NaN. -/
def le (a b : Double) : Prop :=
  match a with
  | NaN => False
  | num x =>
    match b with
    | NaN => False
    | num y => x ≤ y

instance : LT Double := ⟨lt⟩

instance : LE Double := ⟨le⟩

instance decLt : (a b : Double) → Decidable (a < b)
  | NaN, _ => isFalse (fun hlt => hlt)
  | num _, NaN => isFalse (fun hlt => hlt)
  | num x, num y => inferInstanceAs (Decidable (x < y))

instance decLe : (a b : Double) → Decidable (a ≤ b)
  | NaN, _ => isFalse (fun hle => hle)
  | num _, NaN => isFalse (fun hle => hle)
  | num x, num y => inferInstanceAs (Decidable (x ≤ y))

end Double

/-- An Eigen `Vec2` computed by the geometry routines: either coefficient may be NaN. -/
abbrev DVec2 := Double × Double

/-- The C library `fabs`: the absolute value of a number, NaN for NaN. -/
def fabs (v : Double) : Double :=
  match v with
  | Double.NaN => Double.NaN
  | Double.num q => Double.num |q|

/-! ## Data of the two-view sample -/

/-- A `PointFeature`: position and scale of a detected region. -/
structure PointFeature where
  x : ℚ
  y : ℚ
  scale : ℚ
  deriving DecidableEq, Inhabited

/-- The accessor `PointFeature::coords()`. -/
def PointFeature.coords (f : PointFeature) : Vec2 := (f.x, f.y)

/-- An `IndMatch`: feature `_i` of the left image is matched with feature `_j` of the right one. -/
structure IndMatch where
  _i : Nat
  _j : Nat
  deriving DecidableEq, Inhabited

/-- The `geometry::Pose3`, as the sample builds it from two constructor arguments. -/
structure Pose3 where
  rotation : Mat3
  position : Vec3

/-- The `camera::Pinhole` as the sample builds it: `Pinhole(w, h, fx, fy, ppx, ppy)`. -/
structure Pinhole where
  w : Int
  h : Int
  focalX : ℚ
  focalY : ℚ
  ppx : ℚ
  ppy : ℚ

/-- The `sfm::RelativePoseInfo` fields the sample reads. -/
structure RelativePoseInfo where
  relativePose : Pose3
  vec_inliers : List Nat
  found_residual_precision : ℚ

/-- Library routines called by the sample whose bodies are outside the sources at hand. -/
structure Geometry where
  /-- The call `multiview::TriangulateDLT(P1, x1, P2, x2, &X)`; the returned value is `X`. -/
  TriangulateDLT : Mat34 → Vec2 → Mat34 → Vec2 → Vec3
  /-- The method `Pose3::depth(X)`. -/
  depth : Pose3 → Vec3 → Double
  /-- The method `Pose3::center()`. -/
  center : Pose3 → Vec3
  /-- The method `Pinhole::residual(pose, X, x)`. -/
  residual : Pinhole → Pose3 → Vec4 → Vec2 → DVec2
  /-- The method `Pinhole::getProjectiveEquivalent(pose)`. -/
  getProjectiveEquivalent : Pinhole → Pose3 → Mat34

/-- Everything that is in scope when the triangulation loop of `main` starts. -/
structure TriangulationContext where
  geo : Geometry
  /-- The vector `regionsL->Features()`. -/
  FeaturesL : List PointFeature
  /-- The vector `regionsR->Features()`. -/
  FeaturesR : List PointFeature
  vec_PutativeMatches : List IndMatch
  intrinsic0 : Pinhole
  intrinsic1 : Pinhole
  pose0 : Pose3
  pose1 : Pose3
  P1 : Mat34
  P2 : Mat34

/-- The two vectors the triangulation loop grows. -/
structure LoopState where
  vec_residuals : List Double
  vec_3DPoints : List Vec3
  deriving DecidableEq

/-- The state before the first iteration: both vectors empty (`reserve` only sets a capacity). -/
def LoopState.init : LoopState := ⟨[], []⟩

namespace TriangulationContext

/-- The feature `LL` of the loop body, for the inlier `inl = relativePose_info.vec_inliers[i]`. -/
def LL (c : TriangulationContext) (inl : Nat) : PointFeature :=
  c.FeaturesL.getD (c.vec_PutativeMatches.getD inl default)._i default

/-- The feature `RR` of the loop body. -/
def RR (c : TriangulationContext) (inl : Nat) : PointFeature :=
  c.FeaturesR.getD (c.vec_PutativeMatches.getD inl default)._j default

/-- The point `X` that `TriangulateDLT` writes for the inlier `inl`. -/
def X (c : TriangulationContext) (inl : Nat) : Vec3 :=
  c.geo.TriangulateDLT c.P1 (c.LL inl).coords c.P2 (c.RR inl).coords

/-- The guard of the `continue`: `pose0.depth(X) < 0 && pose1.depth(X) < 0`. -/
def behindBoth (c : TriangulationContext) (P : Vec3) : Bool :=
  decide (c.geo.depth c.pose0 P < 0) && decide (c.geo.depth c.pose1 P < 0)

/-- The vector `residual0` of the loop body. -/
def residual0 (c : TriangulationContext) (inl : Nat) : DVec2 :=
  c.geo.residual c.intrinsic0 c.pose0 (homogeneous (c.X inl)) (c.LL inl).coords

/-- The vector `residual1` of the loop body. -/
def residual1 (c : TriangulationContext) (inl : Nat) : DVec2 :=
  c.geo.residual c.intrinsic1 c.pose1 (homogeneous (c.X inl)) (c.RR inl).coords

/-- The four `push_back`s of one iteration, in program order. -/
def pushed (c : TriangulationContext) (inl : Nat) : List Double :=
  [fabs (c.residual0 inl).1, fabs (c.residual0 inl).2,
   fabs (c.residual1 inl).1, fabs (c.residual1 inl).2]

/-- One iteration of the triangulation loop (lines 210-227), for `inl = vec_inliers[i]`. -/
def loopBody (c : TriangulationContext) (s : LoopState) (inl : Nat) : LoopState :=
  if c.behindBoth (c.X inl) then
    s
  else
    { vec_residuals := s.vec_residuals ++ c.pushed inl
      vec_3DPoints := s.vec_3DPoints ++ [c.X inl] }

/-- The state after the first `k` iterations of the loop over `vec_inliers`. -/
def loopAfter (c : TriangulationContext) (vec_inliers : List Nat) (k : Nat) : LoopState :=
  (vec_inliers.take k).foldl c.loopBody LoopState.init

/-- The triangulation loop run to its end. -/
def triangulationLoop (c : TriangulationContext) (vec_inliers : List Nat) : LoopState :=
  vec_inliers.foldl c.loopBody LoopState.init

/-- The inliers that pass the cheirality filter, in their order. -/
def accepted (c : TriangulationContext) (vec_inliers : List Nat) : List Nat :=
  vec_inliers.filter fun inl => !c.behindBoth (c.X inl)

end TriangulationContext

/-! ## Machine integers -/

/-- The values of the C type `int` (32 bits, two's complement). -/
def IsInt (i : Int) : Prop := -2 ^ 31 ≤ i ∧ i < 2 ^ 31

instance (i : Int) : Decidable (IsInt i) := by unfold IsInt; infer_instance

/-- The narrowing conversion `static_cast<int>(n)`: reduction modulo `2^32` into the `int` range. -/
def toInt32 (n : Int) : Int := (n + 2 ^ 31) % 2 ^ 32 - 2 ^ 31

/-- The conversion of an `int` to `size_t` (64 bits, unsigned). -/
def toSizeT (i : Int) : Nat := (i % 2 ^ 64).toNat

/-- The conversion `static_cast<unsigned long long int>(i)` of an `int` (64 bits, unsigned). -/
def toULL (i : Int) : Nat := (i % 2 ^ 64).toNat

/-- The product of two `unsigned long long int` values: reduction modulo `2^64`. -/
def mulULL (a b : Nat) : Nat := (a * b) % 2 ^ 64

/-! ## `Image<T>` (`Image.hpp`) -/

/-- The base class `Eigen::Matrix<T, Dynamic, Dynamic, RowMajor>`: the two dimensions (of type
`Eigen::Index`) and the `rows * cols` coefficients in row-major order. -/
structure Base (T : Type) where
  rows : Nat
  cols : Nat
  data : List T
  size_eq : data.length = rows * cols

namespace Base

variable {T : Type}

/-- A default-constructed dynamic matrix: `0 x 0`, no coefficient. -/
def empty : Base T := ⟨0, 0, [], rfl⟩

/-- The storage after Eigen `resize` to `n` coefficients. The resize is not conservative: the
storage is kept when the number of coefficients does not change, and is reallocated otherwise,
its content being whatever the allocator returns (`uninit`). -/
def resizedData (m : Base T) (n : Nat) (uninit : Nat → T) : List T :=
  if n = m.rows * m.cols then m.data else (List.range n).map uninit

/-- Eigen `resize(rows, cols)`. Negative sizes violate its assertion (`none`). -/
def resize (m : Base T) (rows cols : Int) (uninit : Nat → T) : Option (Base T) :=
  if rows < 0 ∨ cols < 0 then
    none
  else
    some
      { rows := rows.toNat
        cols := cols.toNat
        data := m.resizedData (rows.toNat * cols.toNat) uninit
        size_eq := by
          unfold resizedData
          split
          · next h => rw [h, m.size_eq]
          · simp }

/-- Eigen `fill(val)`: every stored coefficient is overwritten with `val`. -/
def fill (m : Base T) (val : T) : Base T :=
  { m with
    data := m.data.map fun _ => val
    size_eq := by rw [List.length_map, m.size_eq] }

/-- Eigen `operator()(row, col)` of a row-major matrix; an index outside the matrix violates its
assertion (`none`). -/
def coeff (m : Base T) (row col : Int) : Option T :=
  if 0 ≤ row ∧ row < m.rows ∧ 0 ≤ col ∧ col < m.cols then
    m.data[row.toNat * m.cols + col.toNat]?
  else
    none

/-- Eigen coefficient-wise binary expression (`operator+`, `operator-` of `MatrixBase`), evaluated
into a matrix. Operands of different dimensions violate its assertion (`none`). -/
def cwiseBinaryOp (f : T → T → T) (a b : Base T) : Option (Base T) :=
  if h : a.rows = b.rows ∧ a.cols = b.cols then
    some
      { rows := a.rows
        cols := a.cols
        data := List.zipWith f a.data b.data
        size_eq := by
          rw [List.length_zipWith, a.size_eq, b.size_eq, h.1, h.2, Nat.min_self] }
  else
    none

end Base

/-- The class `Image<T>`: a row-major Eigen matrix (by inheritance). -/
structure Image (T : Type) extends Base T

namespace Image

variable {T : Type}

/-- The copy constructor `Image(const Base& I)`. -/
def ofBase (I : Base T) : Image T := ⟨I⟩

/-- The default constructor `Image()`: `Base::resize(0, 0)` on the empty matrix. -/
def default_ctor (uninit : Nat → T) : Option (Image T) :=
  (Base.empty.resize 0 0 uninit).map Image.mk

/-- The full constructor `Image(width, height, fInit, val)`; in C++ `fInit` defaults to `false` and
`val` to `T{}`. -/
def ctor (width height : Int) (fInit : Bool) (val : T) (uninit : Nat → T) : Option (Image T) :=
  (Base.empty.resize height width uninit).map fun b =>
    if fInit then Image.mk (b.fill val) else Image.mk b

/-- The method `resize(width, height, fInit, val)`. -/
def resize (img : Image T) (width height : Int) (fInit : Bool) (val : T) (uninit : Nat → T) :
    Option (Image T) :=
  (img.toBase.resize height width uninit).map fun b =>
    if fInit then Image.mk (b.fill val) else Image.mk b

/-- The call `resize(width, height)` with both default arguments: `fInit = true`, `val = T{}`. -/
def resize_dflt [Inhabited T] (img : Image T) (width height : Int) (uninit : Nat → T) :
    Option (Image T) :=
  img.resize width height true default uninit

/-- The getter `Width()`: `static_cast<int>(Base::cols())`. -/
def Width (img : Image T) : Int := toInt32 img.cols

/-- The getter `Height()`: `static_cast<int>(Base::rows())`. -/
def Height (img : Image T) : Int := toInt32 img.rows

/-- The pixel access `operator()(y, x)`. -/
def pixel (img : Image T) (y x : Int) : Option T := img.toBase.coeff y x

/-- The image has the `int` dimensions `width x height` and every pixel inside it is `val`. -/
def IsFilled (img : Image T) (width height : Int) (val : T) : Prop :=
  img.Width = width ∧ img.Height = height ∧
    ∀ y x : Int, 0 ≤ x ∧ x < width ∧ 0 ≤ y ∧ y < height → img.pixel y x = some val

/-- The method `Contains(y, x)`; the `int` arguments are compared with `Base::cols()` and
`Base::rows()` in the type `Eigen::Index`. -/
def Contains (img : Image T) (y x : Int) : Bool :=
  decide (0 ≤ x) && decide (x < img.cols) && decide (0 ≤ y) && decide (y < img.rows)

/-- The getter `Depth()`: `sizeof(Tpixel)`, returned as an `int`. The size of the pixel type is a
parameter of the embedding. -/
def Depth (_img : Image T) (sizeofT : Nat) : Int := toInt32 sizeofT

/-- The getter `MemorySize()`: the product of the three getters, each converted to
`unsigned long long int`, multiplied from left to right. -/
def MemorySize (img : Image T) (sizeofT : Nat) : Nat :=
  mulULL (mulULL (toULL img.Width) (toULL img.Height)) (toULL (img.Depth sizeofT))

/-- The free function `operator+(imgA, imgB)`: the Eigen sum of the two matrices, wrapped into an
image. Both arguments are `const` references. -/
def add [Add T] (imgA imgB : Image T) : Option (Image T) :=
  (Base.cwiseBinaryOp (fun a b => a + b) imgA.toBase imgB.toBase).map Image.ofBase

/-- The free function `operator-(imgA, imgB)`: the Eigen difference of the two matrices, wrapped
into an image. Both arguments are `const` references. -/
def sub [Sub T] (imgA imgB : Image T) : Option (Image T) :=
  (Base.cwiseBinaryOp (fun a b => a - b) imgA.toBase imgB.toBase).map Image.ofBase

end Image

/-! ## The test `cameraEquidistant_disto_undisto_Radial` (`equidistant_test.cpp`) -/

namespace EquidistantTest

/-- The constant `w` of the test. -/
def w : Int := 1000

/-- The constant `h` of the test. -/
def h : Int := 800

/-- The point `ptImage_gt` of the test, `(Vec2::Random() * 800./2.) + Vec2(500,500) +
Vec2::Random()`, for the two random vectors `a` and `b` in their order of appearance. -/
def ptImage_gt (a b : Vec2) : Vec2 :=
  (a.1 * (800 / 2) + 500 + b.1, a.2 * (800 / 2) + 500 + b.2)

/-- The range of `Vec2::Random()`: both coefficients in `[-1, 1]`. -/
def InRandomRange (v : Vec2) : Prop := (-1 ≤ v.1 ∧ v.1 ≤ 1) ∧ (-1 ≤ v.2 ∧ v.2 ≤ 1)

/-- The point lies inside the `w x h` image of the camera under test. -/
def InsideImage (p : Vec2) : Prop := (0 ≤ p.1 ∧ p.1 < w) ∧ (0 ≤ p.2 ∧ p.2 < h)

end EquidistantTest

/-! ## The program `main` of the sample -/

/-- The exit status `EXIT_SUCCESS` of the C library. -/
def EXIT_SUCCESS : Int := 0

/-- The exit status `EXIT_FAILURE` of the C library. -/
def EXIT_FAILURE : Int := 1

/-- The files the sample writes. -/
inductive OutFile
  | concat_01
  | features_02
  | siftMatches_03
  | ACRansacEssential_04
  | EssentialGeometry_ply
  deriving DecidableEq

/-- The content `exportToPly` writes: the vertex count of the header, then one line per vertex
with its colour. -/
structure PlyContent where
  elementVertex : Nat
  vertices : List (Vec3 × Nat × Nat × Nat)
  deriving DecidableEq

/-- The body of `exportToPly` up to the final `flush`: the points in white, the camera positions
in green. -/
def exportToPly (vec_points vec_camPos : List Vec3) : PlyContent :=
  { elementVertex := vec_points.length + vec_camPos.length
    vertices := vec_points.map (fun P => (P, 255, 255, 255)) ++
      vec_camPos.map (fun P => (P, 0, 255, 0)) }

/-- The observable actions of `main`, in program order. -/
inductive Event
  /-- A call of `writeImage`. -/
  | writeImage (file : OutFile)
  /-- The report of the feature and match counts on `std::cout`. -/
  | coutMatches (regionsA regionsB nMatches : Nat)
  /-- A drawing written to an SVG file: one line per correspondence. -/
  | writeSvg (file : OutFile) (lines : List (Vec2 × Vec2))
  /-- The message "Invalid input K.txt file" of `readIntrinsic`. -/
  | cerrInvalidK
  /-- The message "Cannot read intrinsic parameters." -/
  | cerrCannotReadIntrinsic
  /-- The message "Robust relative pose estimation failure." -/
  | cerrRobustFailure
  /-- The report "Found an Essential matrix" on `std::cout`. -/
  | coutEssential (precision : ℚ) (nInliers nMatches : Nat)
  /-- The statistics `BoxStats<float>(vec_residuals.begin(), vec_residuals.end())`, printed. -/
  | boxStats (vec_residuals : List Double)
  /-- The file written by `exportToPly`. -/
  | ply (file : OutFile) (content : PlyContent)
  deriving DecidableEq

/-- What `main` receives from its collaborators: images, regions, matches, the file `K.txt`, and
the estimator. -/
structure Env where
  geo : Geometry
  /-- The left image, as `readImage` delivers it (`unsigned char` pixels). -/
  imageL : Image Nat
  /-- The right image. -/
  imageR : Image Nat
  /-- The positions `regions_perImage.at(0)->GetRegionsPositions()`. -/
  featsL : List PointFeature
  /-- The positions `regions_perImage.at(1)->GetRegionsPositions()`. -/
  featsR : List PointFeature
  /-- The vector `regionsL->Features()`. -/
  FeaturesL : List PointFeature
  /-- The vector `regionsR->Features()`. -/
  FeaturesR : List PointFeature
  /-- The count `regions_perImage.at(0)->RegionCount()`. -/
  RegionCountL : Nat
  /-- The count `regions_perImage.at(1)->RegionCount()`. -/
  RegionCountR : Nat
  /-- The matches after `DistanceRatioMatch` and `getDeduplicated`. -/
  vec_PutativeMatches : List IndMatch
  /-- The numbers in `K.txt`; `none` when the file cannot be opened. -/
  K_txt : Option (List ℚ)
  /-- The content of the local `Mat3 K` before it is assigned. -/
  K_uninit : Mat3
  /-- The call `sfm::robustRelativePose(K1, K2, x1, x2, rng, info, size1, size2, maxIter)`: its
  return value and the content of `relativePose_info` after the call. -/
  robustRelativePose :
    Mat3 → Mat3 → List Vec2 → List Vec2 → Nat × Nat → Nat × Nat → Nat → Bool × RelativePoseInfo

/-- The function `readIntrinsic`: when the file opens, the nine entries are read row by row (an
entry for which the stream has no number left keeps its value) and the result is `true`; otherwise
a message is printed and the result is `false`. -/
def readIntrinsic (file : Option (List ℚ)) (K : Mat3) : Bool × Mat3 × List Event :=
  match file with
  | some nums => (true, (fun j i => nums.getD (3 * j.val + i.val) (K j i)), [])
  | none => (false, K, [Event.cerrInvalidK])

namespace Env

/-- The lines of the drawing `03_siftMatches.svg`. -/
def putativeLines (e : Env) : List (Vec2 × Vec2) :=
  e.vec_PutativeMatches.map fun m =>
    ((e.FeaturesL.getD m._i default).coords, (e.FeaturesR.getD m._j default).coords)

/-- The lines of the drawing `04_ACRansacEssential.svg`. -/
def inlierLines (e : Env) (vec_inliers : List Nat) : List (Vec2 × Vec2) :=
  vec_inliers.map fun inl =>
    ((e.FeaturesL.getD (e.vec_PutativeMatches.getD inl default)._i default).coords,
     (e.FeaturesR.getD (e.vec_PutativeMatches.getD inl default)._j default).coords)

/-- The actions of `main` before the block "Essential geometry filtering" (lines 51-138). -/
def prologue (e : Env) : List Event :=
  [Event.writeImage OutFile.concat_01,
   Event.writeImage OutFile.features_02,
   Event.coutMatches e.RegionCountL e.RegionCountR e.vec_PutativeMatches.length,
   Event.writeSvg OutFile.siftMatches_03 e.putativeLines]

/-- The matrix `xL` of step A. -/
def xL (e : Env) : List Vec2 :=
  e.vec_PutativeMatches.map fun m => (e.featsL.getD m._i default).coords

/-- The matrix `xR` of step A. -/
def xR (e : Env) : List Vec2 :=
  e.vec_PutativeMatches.map fun m => (e.featsR.getD m._j default).coords

/-- The pair `size_imaL`. -/
def size_imaL (e : Env) : Nat × Nat := (toSizeT e.imageL.Width, toSizeT e.imageL.Height)

/-- The pair `size_imaR`. -/
def size_imaR (e : Env) : Nat × Nat := (toSizeT e.imageR.Width, toSizeT e.imageR.Height)

/-- The call of `sfm::robustRelativePose` at line 164, for the matrix `K` read from the file. -/
def estimate (e : Env) (K : Mat3) : Bool × RelativePoseInfo :=
  e.robustRelativePose K K e.xL e.xR e.size_imaL e.size_imaR 256

/-- The declarations of step C (lines 199-207) for the matrix `K` and the estimated pose. -/
def context (e : Env) (K : Mat3) (relativePose_info : RelativePoseInfo) : TriangulationContext :=
  let intrinsic0 : Pinhole := ⟨e.imageL.Width, e.imageL.Height, K 0 0, K 1 1, K 0 2, K 1 2⟩
  let intrinsic1 : Pinhole := ⟨e.imageR.Width, e.imageR.Height, K 0 0, K 1 1, K 0 2, K 1 2⟩
  let pose0 : Pose3 := ⟨Mat3.Identity, Vec3.Zero⟩
  let pose1 : Pose3 := relativePose_info.relativePose
  { geo := e.geo
    FeaturesL := e.FeaturesL
    FeaturesR := e.FeaturesR
    vec_PutativeMatches := e.vec_PutativeMatches
    intrinsic0 := intrinsic0
    intrinsic1 := intrinsic1
    pose0 := pose0
    pose1 := pose1
    P1 := e.geo.getProjectiveEquivalent intrinsic0 pose0
    P2 := e.geo.getProjectiveEquivalent intrinsic1 pose1 }

/-- The function `main`: its exit status and its actions in program order. -/
def main (e : Env) : Int × List Event :=
  match readIntrinsic e.K_txt e.K_uninit with
  | (false, _, msgs) =>
    (EXIT_FAILURE, e.prologue ++ msgs ++ [Event.cerrCannotReadIntrinsic])
  | (true, K, msgs) =>
    match e.estimate K with
    | (false, _) =>
      (EXIT_FAILURE, e.prologue ++ msgs ++ [Event.cerrRobustFailure])
    | (true, relativePose_info) =>
      let c := e.context K relativePose_info
      let s := c.triangulationLoop relativePose_info.vec_inliers
      let vec_camPos := [e.geo.center c.pose0, e.geo.center c.pose1]
      (EXIT_SUCCESS,
        e.prologue ++ msgs ++
          [Event.coutEssential relativePose_info.found_residual_precision
              relativePose_info.vec_inliers.length e.vec_PutativeMatches.length,
           Event.writeSvg OutFile.ACRansacEssential_04 (e.inlierLines relativePose_info.vec_inliers),
           Event.boxStats s.vec_residuals,
           Event.ply OutFile.EssentialGeometry_ply (exportToPly s.vec_3DPoints vec_camPos)])

end Env

/-! ## A small concrete scene

Two cameras looking along the `z` axis, the second one five units further; used to run the
definitions on concrete data. -/

/-- A toy instance of the library routines: the depth of a point is its `z` coordinate relative to
the camera position. -/
def demoGeometry : Geometry :=
  { TriangulateDLT := fun _ x1 _ x2 => (x1.1, x1.2, x2.1)
    depth := fun pose P => Double.num (P.2.2 - pose.position.2.2)
    center := fun pose => pose.position
    residual := fun _ _ P x => (Double.num (P.1 - x.1), Double.num (P.2.1 - x.2))
    getProjectiveEquivalent := fun _ _ _ _ => 0 }

/-- A toy loop context: three matches whose points have `z = 7`, `z = 2` and `z = -1`. -/
def demoContext : TriangulationContext :=
  { geo := demoGeometry
    FeaturesL := [⟨1, 1, 1⟩, ⟨2, 3, 1⟩, ⟨4, 4, 1⟩]
    FeaturesR := [⟨7, 0, 1⟩, ⟨2, 5, 1⟩, ⟨-1, 1, 1⟩]
    vec_PutativeMatches := [⟨0, 0⟩, ⟨1, 1⟩, ⟨2, 2⟩]
    intrinsic0 := ⟨10, 10, 1, 1, 0, 0⟩
    intrinsic1 := ⟨10, 10, 1, 1, 0, 0⟩
    pose0 := ⟨Mat3.Identity, Vec3.Zero⟩
    pose1 := ⟨Mat3.Identity, (0, 0, 5)⟩
    P1 := fun _ _ => 0
    P2 := fun _ _ => 0 }

/-- A toy instance of the library routines on a degenerate configuration: the triangulation has
no finite solution (homogeneous coordinate zero). The point it writes is not finite (the embedding
stores zero coordinates for it), and the depths and the residuals computed from it are NaN. -/
def degenerateGeometry : Geometry :=
  { TriangulateDLT := fun _ _ _ _ => (0, 0, 0)
    depth := fun _ _ => Double.NaN
    center := fun pose => pose.position
    residual := fun _ _ _ _ => (Double.NaN, Double.NaN)
    getProjectiveEquivalent := fun _ _ _ _ => 0 }

/-- The toy loop context with the degenerate routines. -/
def degenerateContext : TriangulationContext :=
  { demoContext with geo := degenerateGeometry }

/-- A toy relative pose result: the second camera of the toy scene, three inliers. -/
def demoInfo : RelativePoseInfo :=
  { relativePose := ⟨Mat3.Identity, (0, 0, 5)⟩
    vec_inliers := [0, 1, 2]
    found_residual_precision := 1 }

/-- A toy run of the sample in which `K.txt` is read and the estimator answers `ok`. -/
def demoEnv (ok : Bool) : Env :=
  { geo := demoGeometry
    imageL := ⟨⟨2, 2, [0, 0, 0, 0], rfl⟩⟩
    imageR := ⟨⟨2, 2, [0, 0, 0, 0], rfl⟩⟩
    featsL := [⟨1, 1, 1⟩, ⟨2, 3, 1⟩, ⟨4, 4, 1⟩]
    featsR := [⟨7, 0, 1⟩, ⟨2, 5, 1⟩, ⟨-1, 1, 1⟩]
    FeaturesL := [⟨1, 1, 1⟩, ⟨2, 3, 1⟩, ⟨4, 4, 1⟩]
    FeaturesR := [⟨7, 0, 1⟩, ⟨2, 5, 1⟩, ⟨-1, 1, 1⟩]
    RegionCountL := 3
    RegionCountR := 3
    vec_PutativeMatches := [⟨0, 0⟩, ⟨1, 1⟩, ⟨2, 2⟩]
    K_txt := some [1, 0, 0, 0, 1, 0, 0, 0, 1]
    K_uninit := fun _ _ => 0
    robustRelativePose := fun _ _ _ _ _ _ _ => (ok, demoInfo) }

/-- An image of one row and `2^31` columns of `unsigned char` (2 GiB), as the constructor
`Image(const Base&)` accepts it. -/
def wideImage : Image Nat :=
  Image.ofBase
    ⟨1, 2 ^ 31, List.replicate (2 ^ 31) 0, (List.length_replicate _ _).trans (Nat.one_mul _).symm⟩

/-- A `3 x 2` image (three columns, two rows) with arbitrary content. -/
def smallImage : Image Nat := ⟨⟨2, 3, [1, 2, 3, 4, 5, 6], rfl⟩⟩

/-- An image of `float` pixels (4 bytes) with `50000` columns and `50000` rows: ten gigabytes. -/
def largeImage : Image ℚ :=
  Image.ofBase ⟨50000, 50000, List.replicate (50000 * 50000) 0, List.length_replicate _ _⟩

/-- A second `3 x 2` image. -/
def smallImageB : Image Nat := ⟨⟨2, 3, [10, 20, 30, 40, 50, 60], rfl⟩⟩

/-! ## Comparisons and `fabs` on `double` -/

namespace Double

theorem zero_def : (0 : Double) = num 0 := rfl

@[simp] theorem num_lt_num (x y : ℚ) : num x < num y ↔ x < y := Iff.rfl

@[simp] theorem num_le_num (x y : ℚ) : num x ≤ num y ↔ x ≤ y := Iff.rfl

@[simp] theorem num_lt_zero (x : ℚ) : num x < 0 ↔ x < 0 := Iff.rfl

@[simp] theorem zero_le_num (x : ℚ) : 0 ≤ num x ↔ 0 ≤ x := Iff.rfl

@[simp] theorem not_NaN_lt (b : Double) : ¬ NaN < b := fun hlt => hlt

@[simp] theorem not_zero_le_NaN : ¬ (0 : Double) ≤ NaN := fun hle => hle

/-- A `double` fails the test `d < 0` exactly when it is a number `>= 0` or NaN. -/
theorem not_lt_zero_iff (d : Double) : ¬ d < 0 ↔ 0 ≤ d ∨ d = NaN := by
  cases d with
  | NaN => simp
  | num q => simp

theorem not_lt_zero_of_zero_le (d : Double) (hd : 0 ≤ d) : ¬ d < 0 :=
  (not_lt_zero_iff d).mpr (Or.inl hd)

end Double

/-- The result of `fabs` is a number `>= 0`, or NaN. -/
theorem fabs_nonneg_or_NaN (v : Double) : 0 ≤ fabs v ∨ fabs v = Double.NaN := by
  cases v with
  | NaN => exact Or.inr rfl
  | num q => exact Or.inl ((Double.zero_le_num _).mpr (abs_nonneg q))

/-! ## The triangulation loop: auxiliary facts -/

namespace TriangulationContext

theorem loopBody_behind (c : TriangulationContext) (s : LoopState) (inl : Nat)
    (h : c.behindBoth (c.X inl) = true) : c.loopBody s inl = s := by
  simp [loopBody, h]

theorem loopBody_kept (c : TriangulationContext) (s : LoopState) (inl : Nat)
    (h : c.behindBoth (c.X inl) = false) :
    c.loopBody s inl = ⟨s.vec_residuals ++ c.pushed inl, s.vec_3DPoints ++ [c.X inl]⟩ := by
  simp [loopBody, h]

/-- Running the loop from any state appends, for the accepted inliers in their order, the four
residuals and the point. -/
theorem foldl_loopBody (c : TriangulationContext) (l : List Nat) (s : LoopState) :
    l.foldl c.loopBody s =
      ⟨s.vec_residuals ++ (c.accepted l).flatMap c.pushed,
       s.vec_3DPoints ++ (c.accepted l).map c.X⟩ := by
  induction l generalizing s with
  | nil => simp [accepted]
  | cons inl l ih =>
    rw [List.foldl_cons, ih]
    cases h : c.behindBoth (c.X inl)
    · simp [loopBody_kept c s inl h, accepted, h, List.filter_cons]
    · simp [loopBody_behind c s inl h, accepted, h, List.filter_cons]

theorem triangulationLoop_eq (c : TriangulationContext) (l : List Nat) :
    c.triangulationLoop l = ⟨(c.accepted l).flatMap c.pushed, (c.accepted l).map c.X⟩ := by
  simp [triangulationLoop, foldl_loopBody, LoopState.init]

theorem loopAfter_eq (c : TriangulationContext) (l : List Nat) (k : Nat) :
    c.loopAfter l k =
      ⟨(c.accepted (l.take k)).flatMap c.pushed, (c.accepted (l.take k)).map c.X⟩ := by
  simp [loopAfter, foldl_loopBody, LoopState.init]

theorem loopAfter_length (c : TriangulationContext) (l : List Nat) :
    c.loopAfter l l.length = c.triangulationLoop l := by
  simp [loopAfter, triangulationLoop]

theorem behindBoth_eq_true (c : TriangulationContext) (P : Vec3) :
    c.behindBoth P = true ↔ c.geo.depth c.pose0 P < 0 ∧ c.geo.depth c.pose1 P < 0 := by
  simp [behindBoth]

theorem behindBoth_eq_false (c : TriangulationContext) (P : Vec3) :
    c.behindBoth P = false ↔ ¬ (c.geo.depth c.pose0 P < 0 ∧ c.geo.depth c.pose1 P < 0) := by
  rw [← Bool.not_eq_true, behindBoth_eq_true]

theorem mem_accepted (c : TriangulationContext) (l : List Nat) (inl : Nat) :
    inl ∈ c.accepted l ↔ inl ∈ l ∧ c.behindBoth (c.X inl) = false := by
  simp [accepted]

theorem length_flatMap_pushed (c : TriangulationContext) (l : List Nat) :
    (l.flatMap c.pushed).length = 4 * l.length := by
  induction l with
  | nil => simp
  | cons a l ih => simp [List.flatMap_cons, ih, pushed]; omega

/-- Iteration `i` of the loop applies the loop body to the inlier `vec_inliers[i]`. -/
theorem loopAfter_succ (c : TriangulationContext) (l : List Nat) (i inl : Nat)
    (hi : l[i]? = some inl) : c.loopAfter l (i + 1) = c.loopBody (c.loopAfter l i) inl := by
  simp [loopAfter, List.take_succ, hi, List.foldl_append]

theorem accepted_sublist (c : TriangulationContext) (l : List Nat) :
    (c.accepted l).Sublist l := by
  simp [accepted]

theorem accepted_eq_self (c : TriangulationContext) (l : List Nat) :
    c.accepted l = l ↔ ∀ inl ∈ l, c.behindBoth (c.X inl) = false := by
  simp [accepted, List.filter_eq_self]

/-- The residuals of an accepted inlier are a contiguous block of the final residual vector. -/
theorem pushed_infix (c : TriangulationContext) (l : List Nat) (inl : Nat)
    (h : inl ∈ c.accepted l) : c.pushed inl <:+: (c.accepted l).flatMap c.pushed := by
  obtain ⟨l₁, l₂, hl⟩ := List.append_of_mem h
  rw [hl]
  refine ⟨l₁.flatMap c.pushed, l₂.flatMap c.pushed, ?_⟩
  simp [List.flatMap_append, List.flatMap_cons]

theorem map_accepted_eq_filterMap (c : TriangulationContext) (l : List Nat) :
    (c.accepted l).map c.X =
      l.filterMap (fun inl => if c.behindBoth (c.X inl) then none else some (c.X inl)) := by
  induction l with
  | nil => rfl
  | cons inl l ih =>
    have ih' := ih
    unfold accepted at ih' ⊢
    cases h : c.behindBoth (c.X inl) <;> simp [List.filter_cons, List.filterMap_cons, h, ih']

theorem demo_loopAfter :
    demoContext.loopAfter [0, 1, 2] 3 =
      ⟨[Double.num 0, Double.num 0, Double.num 6, Double.num 1,
        Double.num 0, Double.num 0, Double.num 0, Double.num 2],
       [(1, 1, 7), (2, 3, 2)]⟩ := by
  simp [loopAfter, loopBody, behindBoth, TriangulationContext.X, LL, RR, demoContext, demoGeometry,
    pushed, residual0, residual1, LoopState.init, PointFeature.coords, homogeneous, fabs,
    Vec3.Zero]
  norm_num

theorem demo_triangulationLoop :
    demoContext.triangulationLoop [0, 1, 2] =
      ⟨[Double.num 0, Double.num 0, Double.num 6, Double.num 1,
        Double.num 0, Double.num 0, Double.num 0, Double.num 2],
       [(1, 1, 7), (2, 3, 2)]⟩ := by
  rw [← demo_loopAfter, ← loopAfter_length]; rfl

theorem demo_X_one : demoContext.X 1 = (2, 3, 2) := by
  simp [TriangulationContext.X, LL, RR, demoContext, demoGeometry, PointFeature.coords]

theorem demo_depth0 (P : Vec3) :
    demoContext.geo.depth demoContext.pose0 P = Double.num P.2.2 := by
  simp [demoContext, demoGeometry, Vec3.Zero]

theorem demo_depth1 (P : Vec3) :
    demoContext.geo.depth demoContext.pose1 P = Double.num (P.2.2 - 5) := by
  simp [demoContext, demoGeometry]

theorem degenerate_loopAfter :
    degenerateContext.loopAfter [0] 1 =
      ⟨[Double.NaN, Double.NaN, Double.NaN, Double.NaN], [(0, 0, 0)]⟩ := by
  simp [loopAfter, loopBody, behindBoth, TriangulationContext.X, degenerateContext,
    degenerateGeometry, pushed, residual0, residual1, LoopState.init, fabs]

theorem degenerate_triangulationLoop :
    degenerateContext.triangulationLoop [0] =
      ⟨[Double.NaN, Double.NaN, Double.NaN, Double.NaN], [(0, 0, 0)]⟩ := by
  rw [← degenerate_loopAfter, ← loopAfter_length]; rfl

theorem degenerate_depth (P : Vec3) :
    degenerateContext.geo.depth degenerateContext.pose0 P = Double.NaN ∧
      degenerateContext.geo.depth degenerateContext.pose1 P = Double.NaN :=
  ⟨rfl, rfl⟩

end TriangulationContext

/-! ## The triangulation loop: cheirality, order, residuals -/

/-- C1, as stated, fails: on the degenerate configuration the triangulated point has a NaN depth in
both cameras; the test `< 0` of the guard is false for NaN, the point is appended, and its depth is
`>= 0` in neither camera. -/
theorem cheirality_fails_for_NaN_depth :
    ((0, 0, 0) : Vec3) ∈ (degenerateContext.loopAfter [0] 1).vec_3DPoints ∧
      ¬ (0 ≤ degenerateContext.geo.depth degenerateContext.pose0 (0, 0, 0) ∨
        0 ≤ degenerateContext.geo.depth degenerateContext.pose1 (0, 0, 0)) := by
  refine ⟨by simp [TriangulationContext.degenerate_loopAfter], ?_⟩
  rw [(TriangulationContext.degenerate_depth (0, 0, 0)).1,
    (TriangulationContext.degenerate_depth (0, 0, 0)).2]
  simp

/-- C1, amended: after every iteration of the triangulation loop, no point of `vec_3DPoints` has a
negative depth in both cameras: each point has, in at least one of the two cameras, a depth that
is `>= 0` or NaN. -/
theorem cheirality_after_every_iteration (c : TriangulationContext) (vec_inliers : List Nat)
    (k : Nat) (P : Vec3) (hP : P ∈ (c.loopAfter vec_inliers k).vec_3DPoints) :
    ¬ (c.geo.depth c.pose0 P < 0 ∧ c.geo.depth c.pose1 P < 0) ∧
      ((0 ≤ c.geo.depth c.pose0 P ∨ c.geo.depth c.pose0 P = Double.NaN) ∨
        (0 ≤ c.geo.depth c.pose1 P ∨ c.geo.depth c.pose1 P = Double.NaN)) := by
  rw [c.loopAfter_eq] at hP
  obtain ⟨inl, hinl, rfl⟩ := List.mem_map.mp hP
  have hb := (c.behindBoth_eq_false _).mp ((c.mem_accepted _ inl).mp hinl).2
  refine ⟨hb, ?_⟩
  rcases not_and_or.mp hb with h0 | h1
  · exact Or.inl ((Double.not_lt_zero_iff _).mp h0)
  · exact Or.inr ((Double.not_lt_zero_iff _).mp h1)

/-- The point `(2, 3, 2)` of the toy scene is in the cloud after three iterations; it is behind the
second camera only. -/
theorem cheirality_after_every_iteration_witness :
    ((2, 3, 2) : Vec3) ∈ (demoContext.loopAfter [0, 1, 2] 3).vec_3DPoints ∧
      ¬ (demoContext.geo.depth demoContext.pose0 (2, 3, 2) < 0 ∧
          demoContext.geo.depth demoContext.pose1 (2, 3, 2) < 0) ∧
      ((0 ≤ demoContext.geo.depth demoContext.pose0 (2, 3, 2) ∨
          demoContext.geo.depth demoContext.pose0 (2, 3, 2) = Double.NaN) ∨
        (0 ≤ demoContext.geo.depth demoContext.pose1 (2, 3, 2) ∨
          demoContext.geo.depth demoContext.pose1 (2, 3, 2) = Double.NaN)) :=
  ⟨by simp [TriangulationContext.demo_loopAfter],
    cheirality_after_every_iteration demoContext [0, 1, 2] 3 (2, 3, 2)
      (by simp [TriangulationContext.demo_loopAfter])⟩

/-- C4, as stated, fails: on the degenerate configuration the residuals of the accepted point are
NaN, `fabs` of NaN is NaN, and the entry NaN of `vec_residuals` is not `>= 0`. -/
theorem residual_entry_not_nonneg_for_NaN :
    Double.NaN ∈ (degenerateContext.triangulationLoop [0]).vec_residuals ∧
      ¬ ((0 : Double) ≤ Double.NaN) :=
  ⟨by simp [TriangulationContext.degenerate_triangulationLoop], Double.not_zero_le_NaN⟩

/-- C4, amended: `vec_residuals` is the concatenation, over the accepted inliers in their order,
of the four values `fabs(residual0.x), fabs(residual0.y), fabs(residual1.x), fabs(residual1.y)`,
where `residual0` is the residual of the point in the first camera against the left feature and
`residual1` the one in the second camera against the right feature, while `vec_3DPoints` holds the
points of the same inliers; `vec_residuals.size() == 4 * vec_3DPoints.size()`, and every entry of
`vec_residuals` is `>= 0` or NaN. -/
theorem residuals_four_per_accepted_point (c : TriangulationContext) (vec_inliers : List Nat) :
    (c.triangulationLoop vec_inliers).vec_residuals =
        (vec_inliers.filter fun inl => !c.behindBoth (c.X inl)).flatMap
          (fun inl =>
            [fabs (c.geo.residual c.intrinsic0 c.pose0
                (homogeneous (c.geo.TriangulateDLT c.P1 (c.LL inl).coords c.P2 (c.RR inl).coords))
                (c.LL inl).coords).1,
             fabs (c.geo.residual c.intrinsic0 c.pose0
                (homogeneous (c.geo.TriangulateDLT c.P1 (c.LL inl).coords c.P2 (c.RR inl).coords))
                (c.LL inl).coords).2,
             fabs (c.geo.residual c.intrinsic1 c.pose1
                (homogeneous (c.geo.TriangulateDLT c.P1 (c.LL inl).coords c.P2 (c.RR inl).coords))
                (c.RR inl).coords).1,
             fabs (c.geo.residual c.intrinsic1 c.pose1
                (homogeneous (c.geo.TriangulateDLT c.P1 (c.LL inl).coords c.P2 (c.RR inl).coords))
                (c.RR inl).coords).2]) ∧
      (c.triangulationLoop vec_inliers).vec_3DPoints =
        (vec_inliers.filter fun inl => !c.behindBoth (c.X inl)).map
          (fun inl => c.geo.TriangulateDLT c.P1 (c.LL inl).coords c.P2 (c.RR inl).coords) ∧
      (∀ r ∈ (c.triangulationLoop vec_inliers).vec_residuals, 0 ≤ r ∨ r = Double.NaN) ∧
      ((c.triangulationLoop vec_inliers).vec_residuals).length =
        4 * ((c.triangulationLoop vec_inliers).vec_3DPoints).length := by
  rw [c.triangulationLoop_eq]
  refine ⟨rfl, rfl, ?_, ?_⟩
  · intro r hr
    obtain ⟨inl, -, hr⟩ := List.mem_flatMap.mp hr
    simp only [TriangulationContext.pushed, List.mem_cons, List.mem_singleton,
      List.not_mem_nil, or_false] at hr
    rcases hr with rfl | rfl | rfl | rfl <;> exact fabs_nonneg_or_NaN _
  · simp [c.length_flatMap_pushed]

/-- In the toy scene the value `6` is recorded, and it is non-negative. -/
theorem residuals_four_per_accepted_point_witness :
    Double.num 6 ∈ (demoContext.triangulationLoop [0, 1, 2]).vec_residuals ∧
      (0 ≤ Double.num 6 ∨ Double.num 6 = Double.NaN) :=
  ⟨by simp [TriangulationContext.demo_triangulationLoop],
    (residuals_four_per_accepted_point demoContext [0, 1, 2]).2.2.1 (Double.num 6)
      (by simp [TriangulationContext.demo_triangulationLoop])⟩

/-- C5, as stated, fails: in the toy scene one of the three inliers is behind both cameras, and the
residual vector has 8 entries, not 12. -/
theorem residuals_do_not_cover_rejected_inliers :
    ¬ ((demoContext.triangulationLoop [0, 1, 2]).vec_residuals.length = 4 * [0, 1, 2].length) := by
  simp [TriangulationContext.demo_triangulationLoop]

/-- C5, amended: the residual vector handed to `BoxStats` holds the four residuals of every inlier
that passed the cheirality filter; its length is `4 *` the number of accepted inliers, which is at
most `4 * vec_inliers.size()`, with equality exactly when no inlier is behind both cameras. -/
theorem residuals_cover_accepted_inliers (c : TriangulationContext) (vec_inliers : List Nat) :
    (c.triangulationLoop vec_inliers).vec_residuals =
        (vec_inliers.filter fun inl => !c.behindBoth (c.X inl)).flatMap c.pushed ∧
      ((c.triangulationLoop vec_inliers).vec_residuals).length =
        4 * (vec_inliers.filter fun inl => !c.behindBoth (c.X inl)).length ∧
      ((c.triangulationLoop vec_inliers).vec_residuals).length ≤ 4 * vec_inliers.length ∧
      (((c.triangulationLoop vec_inliers).vec_residuals).length = 4 * vec_inliers.length ↔
        ∀ inl ∈ vec_inliers,
          ¬ (c.geo.depth c.pose0 (c.X inl) < 0 ∧ c.geo.depth c.pose1 (c.X inl) < 0)) := by
  have hlen : ((c.triangulationLoop vec_inliers).vec_residuals).length =
      4 * (c.accepted vec_inliers).length := by
    rw [c.triangulationLoop_eq]; exact c.length_flatMap_pushed _
  have hle : (c.accepted vec_inliers).length ≤ vec_inliers.length :=
    (c.accepted_sublist vec_inliers).length_le
  refine ⟨by rw [c.triangulationLoop_eq]; rfl, hlen, by omega, ?_⟩
  rw [hlen]
  constructor
  · intro h inl hinl
    have heq : c.accepted vec_inliers = vec_inliers :=
      (c.accepted_sublist vec_inliers).eq_of_length (by omega)
    exact (c.behindBoth_eq_false _).mp (((c.accepted_eq_self _).mp heq) inl hinl)
  · intro h
    have heq : c.accepted vec_inliers = vec_inliers :=
      (c.accepted_eq_self _).mpr fun inl hinl => (c.behindBoth_eq_false _).mpr (h inl hinl)
    rw [heq]

/-- In the toy scene the first two inliers are in front of the first camera, and their eight
residuals are all recorded. -/
theorem residuals_cover_accepted_inliers_witness :
    ((demoContext.triangulationLoop [0, 1]).vec_residuals).length = 4 * [0, 1].length :=
  (residuals_cover_accepted_inliers demoContext [0, 1]).2.2.2.mpr (by
    intro inl hinl
    simp only [List.mem_cons, List.mem_singleton, List.not_mem_nil, or_false] at hinl
    rcases hinl with rfl | rfl <;>
      simp [TriangulationContext.demo_depth0, TriangulationContext.X, TriangulationContext.LL,
        TriangulationContext.RR, demoContext, demoGeometry, PointFeature.coords, Vec3.Zero])

/-! ## The control flow of `main` -/

namespace Env

theorem main_of_unreadable (e : Env) (h : e.K_txt = none) :
    e.main = (EXIT_FAILURE,
      e.prologue ++ [Event.cerrInvalidK] ++ [Event.cerrCannotReadIntrinsic]) := by
  simp [main, readIntrinsic, h]

theorem main_of_estimation_failure (e : Env) (nums : List ℚ) (h : e.K_txt = some nums)
    (hf : (e.estimate (readIntrinsic e.K_txt e.K_uninit).2.1).1 = false) :
    e.main = (EXIT_FAILURE, e.prologue ++ [Event.cerrRobustFailure]) := by
  simp only [readIntrinsic, h] at hf
  simp only [main, readIntrinsic, h]
  split
  · simp
  · rename_i info heq
    rw [heq] at hf
    simp at hf

theorem main_of_estimation_success (e : Env) (nums : List ℚ) (h : e.K_txt = some nums)
    (hs : (e.estimate (readIntrinsic e.K_txt e.K_uninit).2.1).1 = true) :
    e.main.1 = EXIT_SUCCESS := by
  simp only [readIntrinsic, h] at hs
  simp only [main, readIntrinsic, h]
  split
  · rename_i info heq
    rw [heq] at hs
    simp at hs
  · rfl

theorem demo_main_failure :
    (demoEnv false).main = (EXIT_FAILURE, (demoEnv false).prologue ++ [Event.cerrRobustFailure]) :=
  main_of_estimation_failure (demoEnv false) [1, 0, 0, 0, 1, 0, 0, 0, 1] rfl rfl

theorem demo_main_success :
    (demoEnv true).main =
      (EXIT_SUCCESS,
        (demoEnv true).prologue ++
          [Event.coutEssential 1 3 3,
           Event.writeSvg OutFile.ACRansacEssential_04
             [((1, 1), (7, 0)), ((2, 3), (2, 5)), ((4, 4), (-1, 1))],
           Event.boxStats
             [Double.num 0, Double.num 0, Double.num 6, Double.num 1,
              Double.num 0, Double.num 0, Double.num 0, Double.num 2],
           Event.ply OutFile.EssentialGeometry_ply
             ⟨4, [((1, 1, 7), 255, 255, 255), ((2, 3, 2), 255, 255, 255),
                  ((0, 0, 0), 0, 255, 0), ((0, 0, 5), 0, 255, 0)]⟩]) := by
  simp [Env.main, readIntrinsic, demoEnv, Env.estimate, Env.context, demoInfo, demoGeometry,
    Env.inlierLines, exportToPly, TriangulationContext.triangulationLoop,
    TriangulationContext.loopBody, TriangulationContext.behindBoth, TriangulationContext.X,
    TriangulationContext.LL, TriangulationContext.RR, TriangulationContext.pushed,
    TriangulationContext.residual0, TriangulationContext.residual1, LoopState.init,
    PointFeature.coords, homogeneous, fabs, Vec3.Zero]
  norm_num

end Env

/-- C6: when `sfm::robustRelativePose` returns `false`, `main` returns `EXIT_FAILURE`, hands no
residual to `BoxStats` and exports no point cloud, and its whole behaviour is independent of the
content of `relativePose_info` and of the triangulation routines (they are never used).
Conversely a point cloud is exported only when `K.txt` was read, the estimation succeeded, and
then `main` returns `EXIT_SUCCESS`. -/
theorem estimation_failure_yields_no_result (e : Env) :
    ((e.estimate (readIntrinsic e.K_txt e.K_uninit).2.1).1 = false →
        e.main.1 = EXIT_FAILURE ∧
        (∀ r, Event.boxStats r ∉ e.main.2) ∧
        (∀ f content, Event.ply f content ∉ e.main.2) ∧
        (∀ (geo' : Geometry) (info' : RelativePoseInfo),
          Env.main
            { e with
              geo := geo'
              robustRelativePose := fun K1 K2 x1 x2 s1 s2 n =>
                ((e.robustRelativePose K1 K2 x1 x2 s1 s2 n).1, info') } = e.main)) ∧
      (∀ f content, Event.ply f content ∈ e.main.2 →
        (readIntrinsic e.K_txt e.K_uninit).1 = true ∧
        (e.estimate (readIntrinsic e.K_txt e.K_uninit).2.1).1 = true ∧
        e.main.1 = EXIT_SUCCESS) := by
  have key : (e.estimate (readIntrinsic e.K_txt e.K_uninit).2.1).1 = false →
      e.main.1 = EXIT_FAILURE ∧ (∀ r, Event.boxStats r ∉ e.main.2) ∧
        (∀ f content, Event.ply f content ∉ e.main.2) := by
    intro hf
    rcases Option.eq_none_or_eq_some e.K_txt with h | ⟨nums, h⟩
    · simp [e.main_of_unreadable h, Env.prologue]
    · simp [e.main_of_estimation_failure nums h hf, Env.prologue]
  refine ⟨fun hf => ⟨(key hf).1, (key hf).2.1, (key hf).2.2, fun geo' info' => ?_⟩,
    fun f content hmem => ?_⟩
  · rcases Option.eq_none_or_eq_some e.K_txt with h | ⟨nums, h⟩
    · rw [e.main_of_unreadable h]
      refine Env.main_of_unreadable _ ?_
      exact h
    · rw [e.main_of_estimation_failure nums h hf]
      refine Env.main_of_estimation_failure _ nums ?_ ?_
      · exact h
      · exact hf
  · rcases Option.eq_none_or_eq_some e.K_txt with h | ⟨nums, h⟩
    · rw [e.main_of_unreadable h] at hmem
      simp [Env.prologue] at hmem
    · cases hs : (e.estimate (readIntrinsic e.K_txt e.K_uninit).2.1).1 with
      | false => exact absurd hmem ((key hs).2.2 f content)
      | true =>
        exact ⟨by simp [readIntrinsic, h], rfl, e.main_of_estimation_success nums h hs⟩

/-- The toy run in which the estimator fails ends with `EXIT_FAILURE` and exports nothing; the toy
run in which it succeeds exports a cloud, and there `K.txt` was read and the estimation
succeeded. -/
theorem estimation_failure_yields_no_result_witness :
    ((demoEnv false).main.1 = EXIT_FAILURE ∧
      (∀ r, Event.boxStats r ∉ (demoEnv false).main.2) ∧
      (∀ f content, Event.ply f content ∉ (demoEnv false).main.2) ∧
      (∀ (geo' : Geometry) (info' : RelativePoseInfo),
        Env.main
          { demoEnv false with
            geo := geo'
            robustRelativePose := fun K1 K2 x1 x2 s1 s2 n =>
              (((demoEnv false).robustRelativePose K1 K2 x1 x2 s1 s2 n).1, info') } =
          (demoEnv false).main)) ∧
      ((readIntrinsic (demoEnv true).K_txt (demoEnv true).K_uninit).1 = true ∧
        ((demoEnv true).estimate
          (readIntrinsic (demoEnv true).K_txt (demoEnv true).K_uninit).2.1).1 = true ∧
        (demoEnv true).main.1 = EXIT_SUCCESS) :=
  ⟨(estimation_failure_yields_no_result (demoEnv false)).1 rfl,
    (estimation_failure_yields_no_result (demoEnv true)).2 OutFile.EssentialGeometry_ply
      ⟨4, [((1, 1, 7), 255, 255, 255), ((2, 3, 2), 255, 255, 255),
            ((0, 0, 0), 0, 255, 0), ((0, 0, 5), 0, 255, 0)]⟩
      (by rw [Env.demo_main_success]; simp)⟩

/-! ## `Image<T>`: dimensions, `Contains`, construction -/

theorem toInt32_of_lt (n : Nat) (h : (n : Int) < 2 ^ 31) : toInt32 n = n := by
  unfold toInt32
  omega

theorem toInt32_toNat (i : Int) (h0 : 0 ≤ i) (h : i < 2 ^ 31) : toInt32 (i.toNat : Nat) = i := by
  unfold toInt32
  omega

namespace Base

variable {T : Type}

/-- A filled matrix holds `val` at every position inside it. -/
theorem coeff_fill (m : Base T) (val : T) (row col : Int)
    (h : 0 ≤ row ∧ row < m.rows ∧ 0 ≤ col ∧ col < m.cols) :
    (m.fill val).coeff row col = some val := by
  obtain ⟨h1, h2, h3, h4⟩ := h
  have hr : row.toNat < m.rows := by omega
  have hc : col.toNat < m.cols := by omega
  have hidx : row.toNat * m.cols + col.toNat < m.data.length := by
    rw [m.size_eq]
    calc row.toNat * m.cols + col.toNat < row.toNat * m.cols + m.cols := by omega
      _ = (row.toNat + 1) * m.cols := by ring
      _ ≤ m.rows * m.cols := Nat.mul_le_mul_right _ hr
  have hcond : 0 ≤ row ∧ row < ((m.fill val).rows : Int) ∧ 0 ≤ col ∧
      col < ((m.fill val).cols : Int) := ⟨h1, h2, h3, h4⟩
  unfold coeff
  rw [if_pos hcond]
  show (m.data.map fun _ => val)[row.toNat * m.cols + col.toNat]? = some val
  rw [List.getElem?_map, List.getElem?_eq_getElem hidx]
  rfl

end Base

namespace Image

variable {T : Type}

theorem Contains_iff (img : Image T) (y x : Int) :
    img.Contains y x = true ↔ 0 ≤ x ∧ x < img.cols ∧ 0 ≤ y ∧ y < img.rows := by
  simp [Contains, and_assoc]

theorem default_ctor_eq (uninit : Nat → T) :
    default_ctor uninit = some (Image.mk Base.empty) := by
  simp [default_ctor, Base.resize, Base.empty, Base.resizedData]

theorem ctor_eq_resize (width height : Int) (fInit : Bool) (val : T) (uninit : Nat → T) :
    ctor width height fInit val uninit =
      (Image.mk Base.empty).resize width height fInit val uninit := rfl

/-- A resize with `fInit = true` to non-negative `int` dimensions succeeds and yields an image of
these dimensions, filled with `val`. -/
theorem resize_true_spec (old : Image T) (width height : Int) (hw : 0 ≤ width) (hh : 0 ≤ height)
    (hwi : IsInt width) (hhi : IsInt height) (val : T) (uninit : Nat → T) :
    ∃ img, old.resize width height true val uninit = some img ∧
      img.IsFilled width height val ∧
      (∀ y x : Int, img.Contains y x = true → img.pixel y x = some val) := by
  have hneg : ¬ (height < 0 ∨ width < 0) := by omega
  obtain ⟨b, hb, hrows, hcols⟩ : ∃ b : Base T, old.toBase.resize height width uninit = some b ∧
      b.rows = height.toNat ∧ b.cols = width.toNat := by
    unfold Base.resize
    rw [if_neg hneg]
    exact ⟨_, rfl, rfl, rfl⟩
  have hpix : ∀ y x : Int, 0 ≤ x ∧ x < width ∧ 0 ≤ y ∧ y < height →
      (Image.mk (b.fill val)).pixel y x = some val := by
    intro y x hyx
    apply b.coeff_fill
    rw [hrows, hcols]
    omega
  refine ⟨Image.mk (b.fill val), by simp [resize, hb], ⟨?_, ?_, hpix⟩, ?_⟩
  · show toInt32 b.cols = width
    rw [hcols]
    exact toInt32_toNat width hw hwi.2
  · show toInt32 b.rows = height
    rw [hrows]
    exact toInt32_toNat height hh hhi.2
  · intro y x hc
    rw [Contains_iff] at hc
    apply hpix
    have h1 : (Image.mk (b.fill val)).cols = width.toNat := hcols
    have h2 : (Image.mk (b.fill val)).rows = height.toNat := hrows
    rw [h1, h2] at hc
    omega

end Image

/-- C9, as stated, fails: on an image of `2^31` columns and one row, `Contains(0, 0)` is true,
whereas `Width()` is the wrapped value `-2^31`, so that `0 <= 0 < Width()` is false. -/
theorem contains_fails_on_wide_image :
    ¬ (wideImage.Contains 0 0 = true ↔
        (0 ≤ (0 : Int) ∧ (0 : Int) < wideImage.Width ∧
          0 ≤ (0 : Int) ∧ (0 : Int) < wideImage.Height)) := by
  intro h
  have hc : wideImage.Contains 0 0 = true := by decide
  have hw : wideImage.Width = -2147483648 := by decide
  have := (h.mp hc).2.1
  rw [hw] at this
  omega

/-- C9, amended: for every image and all `y`, `x`, `Contains(y, x)` is true if and only if
`0 <= x < cols()` and `0 <= y < rows()`; when the numbers of columns and rows are representable
as `int` (below `2^31`) this is `0 <= x < Width()` and `0 <= y < Height()`. On a
default-constructed image `Contains` is false everywhere. -/
theorem contains_iff_inside (T : Type) (img : Image T) (y x : Int) :
    (img.Contains y x = true ↔ 0 ≤ x ∧ x < img.cols ∧ 0 ≤ y ∧ y < img.rows) ∧
      ((img.cols : Int) < 2 ^ 31 → (img.rows : Int) < 2 ^ 31 →
        (img.Contains y x = true ↔ 0 ≤ x ∧ x < img.Width ∧ 0 ≤ y ∧ y < img.Height)) ∧
      (∀ uninit : Nat → T,
        (Image.default_ctor uninit).map (fun img0 => img0.Contains y x) = some false) := by
  refine ⟨img.Contains_iff y x, fun hc hr => ?_, fun uninit => ?_⟩
  · rw [img.Contains_iff, Image.Width, Image.Height, toInt32_of_lt _ hc, toInt32_of_lt _ hr]
  · rw [Image.default_ctor_eq]
    simp [Image.Contains, Base.empty]

/-- On the `3 x 2` image, `Contains(1, 2)` holds and agrees with the test on `Width()` and
`Height()`. -/
theorem contains_iff_inside_witness :
    smallImage.Contains 1 2 = true ↔
      0 ≤ (2 : Int) ∧ (2 : Int) < smallImage.Width ∧ 0 ≤ (1 : Int) ∧ (1 : Int) < smallImage.Height :=
  (contains_iff_inside Nat smallImage 1 2).2.1 (by decide) (by decide)

/-- C10: for `int` arguments `width >= 0`, `height >= 0` and every `val`, the constructor
`Image(width, height, true, val)` and `resize(width, height, true, val)` on any image succeed and
yield an image with `Width() == width`, `Height() == height` and every pixel inside it (every
`(y, x)` with `Contains(y, x)`) equal to `val`; `resize(width, height)` without `fInit` does the
same with `val = T{}`. -/
theorem construction_initialises (T : Type) [Inhabited T] (width height : Int)
    (hw : 0 ≤ width) (hh : 0 ≤ height) (hwi : IsInt width) (hhi : IsInt height)
    (val : T) (uninit : Nat → T) (old : Image T) :
    (∃ img, Image.ctor width height true val uninit = some img ∧
        img.IsFilled width height val ∧
        ∀ y x : Int, img.Contains y x = true → img.pixel y x = some val) ∧
      (∃ img, old.resize width height true val uninit = some img ∧
        img.IsFilled width height val ∧
        ∀ y x : Int, img.Contains y x = true → img.pixel y x = some val) ∧
      (∃ img, old.resize_dflt width height uninit = some img ∧
        img.IsFilled width height default ∧
        ∀ y x : Int, img.Contains y x = true → img.pixel y x = some default) :=
  ⟨Image.resize_true_spec _ width height hw hh hwi hhi val uninit,
    Image.resize_true_spec old width height hw hh hwi hhi val uninit,
    Image.resize_true_spec old width height hw hh hwi hhi default uninit⟩

/-- The construction of a `3 x 2` image filled with `7`, from scratch and by resizing the
`3 x 2` image with other content. -/
theorem construction_initialises_witness :
    (∃ img, Image.ctor 3 2 true 7 (fun _ => 0) = some img ∧
        img.IsFilled 3 2 7 ∧
        ∀ y x : Int, img.Contains y x = true → img.pixel y x = some 7) ∧
      (∃ img, smallImage.resize 3 2 true 7 (fun _ => 0) = some img ∧
        img.IsFilled 3 2 7 ∧
        ∀ y x : Int, img.Contains y x = true → img.pixel y x = some 7) ∧
      (∃ img, smallImage.resize_dflt 3 2 (fun _ => 0) = some img ∧
        img.IsFilled 3 2 default ∧
        ∀ y x : Int, img.Contains y x = true → img.pixel y x = some default) :=
  construction_initialises Nat 3 2 (by decide) (by decide) (by decide) (by decide) 7
    (fun _ => 0) smallImage

/-! ## `Image<T>`: `MemorySize` -/

theorem toULL_natCast (n : Nat) (h : n < 2 ^ 64) : toULL (n : Int) = n := by
  unfold toULL
  omega

namespace Image

variable {T : Type}

/-- With dimensions and pixel size in the `int` range, `MemorySize()` is the product of the
number of columns, the number of rows and the pixel size, reduced modulo `2^64`. -/
theorem MemorySize_eq_mod (img : Image T) (sizeofT : Nat) (hc : img.cols < 2 ^ 31)
    (hr : img.rows < 2 ^ 31) (hd : sizeofT < 2 ^ 31) :
    img.MemorySize sizeofT = (img.cols * img.rows * sizeofT) % 2 ^ 64 := by
  have hprod : img.cols * img.rows ≤ (2 ^ 31 - 1) * (2 ^ 31 - 1) :=
    Nat.mul_le_mul (by omega) (by omega)
  have hlt : img.cols * img.rows < 2 ^ 64 := lt_of_le_of_lt hprod (by norm_num)
  unfold MemorySize Width Height Depth
  rw [toInt32_of_lt _ (by omega), toInt32_of_lt _ (by omega), toInt32_of_lt _ (by omega),
    toULL_natCast _ (by omega), toULL_natCast _ (by omega), toULL_natCast _ (by omega)]
  unfold mulULL
  rw [Nat.mod_eq_of_lt hlt]

theorem getters_product (img : Image T) (sizeofT : Nat) (hc : img.cols < 2 ^ 31)
    (hr : img.rows < 2 ^ 31) (hd : sizeofT < 2 ^ 31) :
    img.Width * img.Height * img.Depth sizeofT = ((img.cols * img.rows * sizeofT : Nat) : Int) := by
  unfold Width Height Depth
  rw [toInt32_of_lt _ (by omega), toInt32_of_lt _ (by omega), toInt32_of_lt _ (by omega)]
  push_cast
  rfl

end Image

/-- The ten gigabytes of the `50000 x 50000` image of `float` pixels. -/
theorem largeImage_MemorySize : largeImage.MemorySize 4 = 10000000000 := by
  rw [Image.MemorySize_eq_mod largeImage 4 (by decide) (by decide) (by decide)]
  decide

/-! ## `Image<T>`: pixelwise sum and difference -/

namespace Base

variable {T : Type}

/-- The row-major index of a position inside the matrix addresses a stored coefficient. -/
theorem coeff_inside (m : Base T) (row col : Int)
    (h : 0 ≤ row ∧ row < m.rows ∧ 0 ≤ col ∧ col < m.cols) :
    ∃ u, m.data[row.toNat * m.cols + col.toNat]? = some u ∧ m.coeff row col = some u := by
  obtain ⟨h1, h2, h3, h4⟩ := h
  have hr : row.toNat < m.rows := by omega
  have hc : col.toNat < m.cols := by omega
  have hidx : row.toNat * m.cols + col.toNat < m.data.length := by
    rw [m.size_eq]
    calc row.toNat * m.cols + col.toNat < row.toNat * m.cols + m.cols := by omega
      _ = (row.toNat + 1) * m.cols := by ring
      _ ≤ m.rows * m.cols := Nat.mul_le_mul_right _ hr
  refine ⟨m.data[row.toNat * m.cols + col.toNat], List.getElem?_eq_getElem hidx, ?_⟩
  unfold coeff
  rw [if_pos ⟨h1, h2, h3, h4⟩, List.getElem?_eq_getElem hidx]

/-- The coefficient-wise operation on two matrices of the same dimensions succeeds, keeps the
dimensions, and holds `f u v` wherever the operands hold `u` and `v`. -/
theorem cwiseBinaryOp_spec (f : T → T → T) (a b : Base T) (hrows : a.rows = b.rows)
    (hcols : a.cols = b.cols) :
    ∃ r, cwiseBinaryOp f a b = some r ∧ r.rows = a.rows ∧ r.cols = a.cols ∧
      ∀ row col : Int, 0 ≤ row ∧ row < a.rows ∧ 0 ≤ col ∧ col < a.cols →
        ∃ u v, a.coeff row col = some u ∧ b.coeff row col = some v ∧
          r.coeff row col = some (f u v) := by
  unfold cwiseBinaryOp
  rw [dif_pos ⟨hrows, hcols⟩]
  refine ⟨_, rfl, rfl, rfl, fun row col h => ?_⟩
  obtain ⟨u, hu, hau⟩ := a.coeff_inside row col h
  obtain ⟨v, hv, hbv⟩ := b.coeff_inside row col (by rw [← hrows, ← hcols]; exact h)
  rw [← hcols] at hv
  refine ⟨u, v, hau, hbv, ?_⟩
  unfold coeff
  simp only []
  rw [if_pos h, List.getElem?_zipWith, hu, hv]

end Base

namespace Image

variable {T : Type}

/-- The image built from the coefficient-wise operation `f` on two images of the same
dimensions. -/
theorem cwise_spec (f : T → T → T) (imgA imgB : Image T) (hrows : imgA.rows = imgB.rows)
    (hcols : imgA.cols = imgB.cols) :
    ∃ r, (Base.cwiseBinaryOp f imgA.toBase imgB.toBase).map Image.ofBase = some r ∧
      (r.Width = imgA.Width ∧ r.Height = imgA.Height) ∧
      (r.Width = imgB.Width ∧ r.Height = imgB.Height) ∧
      (∀ y x : Int, r.Contains y x = imgA.Contains y x) ∧
      ∀ y x : Int, imgA.Contains y x = true →
        ∃ u v, imgA.pixel y x = some u ∧ imgB.pixel y x = some v ∧
          r.pixel y x = some (f u v) := by
  obtain ⟨b, hb, hr, hc, hcoeff⟩ := Base.cwiseBinaryOp_spec f imgA.toBase imgB.toBase hrows hcols
  refine ⟨Image.ofBase b, by rw [hb]; rfl, ⟨?_, ?_⟩, ⟨?_, ?_⟩, fun y x => ?_, fun y x hyx => ?_⟩
  · show toInt32 b.cols = toInt32 imgA.cols
    rw [hc]
  · show toInt32 b.rows = toInt32 imgA.rows
    rw [hr]
  · show toInt32 b.cols = toInt32 imgB.cols
    rw [hc, hcols]
  · show toInt32 b.rows = toInt32 imgB.rows
    rw [hr, hrows]
  · show (decide (0 ≤ x) && decide (x < (b.cols : Int)) && decide (0 ≤ y) &&
      decide (y < (b.rows : Int))) = imgA.Contains y x
    rw [hc, hr]
    rfl
  · obtain ⟨h1, h2, h3, h4⟩ := (imgA.Contains_iff y x).mp hyx
    exact hcoeff y x ⟨h3, h4, h1, h2⟩

end Image

/-- C12: for two images of the same size (same numbers of rows and columns), `operator+` and
`operator-` succeed and return an image of that same `Width()` and `Height()` whose pixel at every
`(y, x)` inside the image is `imgA(y, x) + imgB(y, x)`, respectively `imgA(y, x) - imgB(y, x)`.
The operands are `const` references, values of the embedding, and so are left unchanged. -/
theorem add_sub_pixelwise (T : Type) [Add T] [Sub T] (imgA imgB : Image T)
    (hrows : imgA.rows = imgB.rows) (hcols : imgA.cols = imgB.cols) :
    (∃ r, Image.add imgA imgB = some r ∧
        (r.Width = imgA.Width ∧ r.Height = imgA.Height) ∧
        (r.Width = imgB.Width ∧ r.Height = imgB.Height) ∧
        (∀ y x : Int, r.Contains y x = imgA.Contains y x) ∧
        ∀ y x : Int, imgA.Contains y x = true →
          ∃ u v, imgA.pixel y x = some u ∧ imgB.pixel y x = some v ∧
            r.pixel y x = some (u + v)) ∧
      (∃ r, Image.sub imgA imgB = some r ∧
        (r.Width = imgA.Width ∧ r.Height = imgA.Height) ∧
        (r.Width = imgB.Width ∧ r.Height = imgB.Height) ∧
        (∀ y x : Int, r.Contains y x = imgA.Contains y x) ∧
        ∀ y x : Int, imgA.Contains y x = true →
          ∃ u v, imgA.pixel y x = some u ∧ imgB.pixel y x = some v ∧
            r.pixel y x = some (u - v)) :=
  ⟨Image.cwise_spec (fun a b => a + b) imgA imgB hrows hcols,
    Image.cwise_spec (fun a b => a - b) imgA imgB hrows hcols⟩

/-- The sum and the difference of the two `3 x 2` images, second minus first. -/
theorem demo_add_sub :
    Image.add smallImage smallImageB = some ⟨⟨2, 3, [11, 22, 33, 44, 55, 66], rfl⟩⟩ ∧
      Image.sub smallImageB smallImage = some ⟨⟨2, 3, [9, 18, 27, 36, 45, 54], rfl⟩⟩ :=
  ⟨rfl, rfl⟩

/-- The two `3 x 2` images have the same size; their sum and difference are defined pixel by
pixel. -/
theorem add_sub_pixelwise_witness :
    (∃ r, Image.add smallImage smallImageB = some r ∧
        (r.Width = smallImage.Width ∧ r.Height = smallImage.Height) ∧
        (r.Width = smallImageB.Width ∧ r.Height = smallImageB.Height) ∧
        (∀ y x : Int, r.Contains y x = smallImage.Contains y x) ∧
        ∀ y x : Int, smallImage.Contains y x = true →
          ∃ u v, smallImage.pixel y x = some u ∧ smallImageB.pixel y x = some v ∧
            r.pixel y x = some (u + v)) ∧
      (∃ r, Image.sub smallImage smallImageB = some r ∧
        (r.Width = smallImage.Width ∧ r.Height = smallImage.Height) ∧
        (r.Width = smallImageB.Width ∧ r.Height = smallImageB.Height) ∧
        (∀ y x : Int, r.Contains y x = smallImage.Contains y x) ∧
        ∀ y x : Int, smallImage.Contains y x = true →
          ∃ u v, smallImage.pixel y x = some u ∧ smallImageB.pixel y x = some v ∧
            r.pixel y x = some (u - v)) :=
  add_sub_pixelwise Nat smallImage smallImageB rfl rfl

/-! ## The random point of the Equidistant test -/

namespace EquidistantTest

/-- Both coordinates of the generated point range over `[99, 901]`; the point is inside the
`1000 x 800` image exactly when its second coordinate is below `800`. -/
theorem ptImage_gt_range (a b : Vec2) (ha : InRandomRange a) (hb : InRandomRange b) :
    (99 ≤ (ptImage_gt a b).1 ∧ (ptImage_gt a b).1 ≤ 901) ∧
      (99 ≤ (ptImage_gt a b).2 ∧ (ptImage_gt a b).2 ≤ 901) ∧
      (InsideImage (ptImage_gt a b) ↔ a.2 * 400 + b.2 < 300) := by
  obtain ⟨⟨ha1, ha2⟩, ha3, ha4⟩ := ha
  obtain ⟨⟨hb1, hb2⟩, hb3, hb4⟩ := hb
  simp only [ptImage_gt, InsideImage, w, h]
  norm_num
  refine ⟨⟨by linarith, by linarith⟩, ⟨by linarith, by linarith⟩, ?_⟩
  constructor
  · rintro ⟨-, -, h3⟩
    linarith
  · intro h3
    exact ⟨⟨by linarith, by linarith⟩, by linarith, by linarith⟩

end EquidistantTest

/-- C13: the claim fails on the code of the test. For the random vectors `a = (0, 0.875)` and
`b = (0, 0)`, both in the range of `Vec2::Random()`, the generated point is `(500, 850)`, whose
second coordinate is not below the image height `800`. -/
theorem ptImage_gt_outside_image :
    EquidistantTest.InRandomRange (0, 7 / 8) ∧ EquidistantTest.InRandomRange (0, 0) ∧
      EquidistantTest.ptImage_gt (0, 7 / 8) (0, 0) = (500, 850) ∧
      ¬ EquidistantTest.InsideImage (EquidistantTest.ptImage_gt (0, 7 / 8) (0, 0)) := by
  have hpt : EquidistantTest.ptImage_gt (0, 7 / 8) (0, 0) = (500, 850) := by
    simp only [EquidistantTest.ptImage_gt]
    norm_num
  refine ⟨?_, ?_, hpt, ?_⟩
  · simp only [EquidistantTest.InRandomRange]
    norm_num
  · simp only [EquidistantTest.InRandomRange]
    norm_num
  · rw [hpt]
    simp only [EquidistantTest.InsideImage, EquidistantTest.w, EquidistantTest.h]
    norm_num

end AliceVision
